import Mathlib

/-!
Shallow embedding of the realtime WebSocket stream client of the
cryptosignal dashboard (the `WebSocketProvider` React context), together
with the message types it consumes from the shared package.

Modelling conventions:
* JavaScript numbers that the client merely stores and never computes with
  (ids, prices, scores, counts) are modelled as `Int`; `null`-able fields
  become `Option`.
* The JS object used as a string-keyed map (`Record<string, _>`) is
  modelled as an association list with an in-place `upsert`, matching
  the spread-and-assign update `{ ...prev, [k]: v }` semantics used by
  the source.
* `JSON.parse` of an inbound frame is modelled by a `ParseResult`: either
  a parse failure (the JS code catches the exception and only logs) or a
  decoded tagged message; a `type` tag outside the dispatch table is the
  `unknown` constructor.
* Scheduled reconnect delays and query-cache invalidations are recorded in
  ghost log fields (`scheduledReconnects`, `invalidatedQueries`) so that
  trace properties about them can be stated.
-/

namespace CryptoSignal

/-- Sentiment classification from the shared types. -/
inductive Sentiment where
  | BULLISH
  | BEARISH
  | NEUTRAL
deriving DecidableEq, Repr

/-- Payload of a `new_signal` message (interface `SignalData`). -/
structure SignalData where
  id : Int
  token_symbol : String
  token_name : String
  channel_name : String
  sentiment : Sentiment
  price_at_signal : Option Int
  confidence_score : Int
  timestamp : String
deriving DecidableEq, Repr

/-- Payload of a `sentiment_update` message. -/
structure SentimentData where
  overall : Sentiment
  score : Int
deriving DecidableEq, Repr

/-- One trending entry of a `trending_update` payload. -/
structure TrendingToken where
  symbol : String
  count : Int
  change : Int
deriving DecidableEq, Repr

/-- Payload of a `trending_update` message. -/
structure TrendingData where
  top_tokens : List TrendingToken
deriving DecidableEq, Repr

/-- One tracked token price entry (interface `TrackedTokenPrice`). -/
structure TrackedTokenPrice where
  symbol : String
  price_usd : Option Int
  price_change_24h : Option Int
deriving DecidableEq, Repr

/-- One tracked transfer event (interface `TrackedTransfer`). -/
structure TrackedTransfer where
  symbol : String
  chain_id : String
  address : String
  from_ : String
  to_ : String
  value : String
  token_name : String
  token_symbol : String
  tx_hash : String
  confirmed : Bool
  block_number : Option String
  block_timestamp : Option String
  timestamp : String
deriving DecidableEq, Repr

/-- A live channel message (interface `ChannelMessage` in the provider). -/
structure ChannelMessage where
  channel_name : String
  channel_id : Int
  text : String
  message_id : Int
  timestamp : String
  has_signal : Bool
  signal_type : Option String
  token_symbol : Option String
  contract_addresses : List String
  chain : Option String
  sentiment : Option String
deriving DecidableEq, Repr

/-- A `MARKET_UPDATE` message; its `data` field is `any` in the source and
is kept opaque as a string payload. -/
structure MarketUpdateMsg where
  timestamp : String
  source : String
  data : String
deriving DecidableEq, Repr

/-- A point of the per-symbol price history: `{ t: ..., p: ... }`. -/
structure PricePoint where
  t : String
  p : Int
deriving DecidableEq, Repr

/-- Inbound messages after JSON decoding, tagged by their `type` field.
`unknown` stands for any `type` value that the dispatch `switch` of
`handleMessage` has no case for (including `subscribed`/`unsubscribed`).
For `tracked_price_update`, `tracked_transfer` and `channel_message` the
source guards against a missing/falsy `data` (resp. `data.tokens`), which
is modelled by the `Option`. -/
inductive WsMessage where
  | connected (message : String)
  | new_signal (data : SignalData)
  | market_update (m : MarketUpdateMsg)
  | sentiment_update (data : SentimentData)
  | trending_update (data : TrendingData)
  | tracked_price_update (tokens : Option (List TrackedTokenPrice))
  | tracked_transfer (data : Option TrackedTransfer)
  | notification
  | channel_message (data : Option ChannelMessage)
  | monitoring_status
  | pong
  | error (message : String)
  | unknown (tag : String)
deriving DecidableEq, Repr

/-- Result of `JSON.parse` on a raw frame: `fail` models the thrown parse
error (caught by `handleMessage`, which only logs). -/
inductive ParseResult where
  | fail
  | ok (m : WsMessage)
deriving DecidableEq, Repr

/-- Subscription target kind of an outbound command. -/
inductive SubKind where
  | token
  | channel
deriving DecidableEq, Repr

/-- Outbound commands (`WebSocketCommand` in the shared types). -/
inductive WsCommand where
  | subscribe (type : SubKind) (value : String)
  | unsubscribe (type : SubKind) (value : String)
  | ping
deriving DecidableEq, Repr

def SubKind.render : SubKind → String
  | .token => "token"
  | .channel => "channel"

/-- Model of `JSON.stringify` of an outbound command (value strings assumed not to
need escaping, which holds for the token/channel names the UI passes). -/
def cmdToJson : WsCommand → String
  | .subscribe t v =>
      "\x7b\"action\":\"subscribe\",\"type\":\"" ++ t.render ++
        "\",\"value\":\"" ++ v ++ "\"\x7d"
  | .unsubscribe t v =>
      "\x7b\"action\":\"unsubscribe\",\"type\":\"" ++ t.render ++
        "\",\"value\":\"" ++ v ++ "\"\x7d"
  | .ping => "\x7b\"action\":\"ping\"\x7d"

/-- Values of `WebSocket.readyState`. -/
inductive ReadyState where
  | CONNECTING
  | OPEN
  | CLOSING
  | CLOSED
deriving DecidableEq, Repr

/-- The underlying socket handle: its URL, ready state, and the frames
written to it (ghost log for the `send` claims). -/
structure Socket where
  url : String
  readyState : ReadyState
  sent : List String
deriving DecidableEq, Repr

/-- Association-list lookup: JS `m[k]`, `none` when
the key is absent. -/
def getKey (k : String) : List (String × α) → Option α
  | [] => none
  | (k', v) :: rest => if k' = k then some v else getKey k rest

/-- Model of `String.prototype.toUpperCase`, character-wise (the symbols
involved are ASCII). -/
def jsToUpper (s : String) : String := ⟨s.data.map Char.toUpper⟩

/-- Whether the first list is an initial segment of the second. -/
def listStarts [DecidableEq α] : List α → List α → Bool
  | [], _ => true
  | _ :: _, [] => false
  | p :: ps, c :: cs => decide (p = c) && listStarts ps cs

/-- Model of `String.prototype.startsWith`, character-wise. -/
def jsStartsWith (s pre : String) : Bool := listStarts pre.data s.data

/-- Model of `String.prototype.endsWith`, character-wise. -/
def jsEndsWith (s suf : String) : Bool :=
  listStarts suf.data.reverse s.data.reverse

/-- JS object key assignment `m[k] = v`: replaces in place if the key
exists, appends otherwise. -/
def upsert (k : String) (v : α) : List (String × α) → List (String × α)
  | [] => [(k, v)]
  | (k', v') :: rest =>
      if k' = k then (k, v) :: rest else (k', v') :: upsert k v rest

/-- Buffer capacity for signals and market updates (`MAX_SIGNALS`). -/
def MAX_SIGNALS : Nat := 100

/-- Base reconnect delay in ms (`RECONNECT_INTERVAL`). -/
def RECONNECT_INTERVAL : Nat := 3000

/-- Maximum number of reconnect attempts (`MAX_RECONNECT_ATTEMPTS`). -/
def MAX_RECONNECT_ATTEMPTS : Nat := 10

/-- The whole client state of the `WebSocketProvider`: the React state
slices, the refs, and two ghost logs (`scheduledReconnects` records each
delay passed to `setTimeout` for a reconnect; `invalidatedQueries` records
each query key passed to `queryClient.invalidateQueries`). -/
structure ClientState where
  isConnected : Bool
  signals : List SignalData
  marketUpdates : List MarketUpdateMsg
  sentiment : Option SentimentData
  trending : Option TrendingData
  trackedPrices : List (String × TrackedTokenPrice)
  trackedTransfers : List TrackedTransfer
  priceHistory : List (String × List PricePoint)
  channelMessages : List ChannelMessage
  ws : Option Socket
  reconnectAttempts : Nat
  reconnectPending : Bool
  pingTimer : Option Nat
  scheduledReconnects : List Nat
  invalidatedQueries : List String
deriving DecidableEq, Repr

/-- The provider's initial state on mount. -/
def initialState : ClientState where
  isConnected := false
  signals := []
  marketUpdates := []
  sentiment := none
  trending := none
  trackedPrices := []
  trackedTransfers := []
  priceHistory := []
  channelMessages := []
  ws := none
  reconnectAttempts := 0
  reconnectPending := false
  pingTimer := none
  scheduledReconnects := []
  invalidatedQueries := []

/-- The `sendCommand` callback: writes the serialized command iff the socket exists and
`readyState === WebSocket.OPEN`; otherwise the command is dropped. -/
def sendCommand (cmd : WsCommand) (s : ClientState) : ClientState :=
  match s.ws with
  | some sk =>
      if sk.readyState = ReadyState.OPEN then
        { s with ws := some { sk with sent := sk.sent ++ [cmdToJson cmd] } }
      else s
  | none => s

/-- The `subscribe(type, value)` callback: wrapper over `sendCommand`. -/
def subscribe (t : SubKind) (v : String) (s : ClientState) : ClientState :=
  sendCommand (WsCommand.subscribe t v) s

/-- The `unsubscribe(type, value)` callback: wrapper over `sendCommand`. -/
def unsubscribe (t : SubKind) (v : String) (s : ClientState) : ClientState :=
  sendCommand (WsCommand.unsubscribe t v) s

/-- The `clearSignals` callback: resets the signals, market-updates and channel-message
buffers. -/
def clearSignals (s : ClientState) : ClientState :=
  { s with signals := [], marketUpdates := [], channelMessages := [] }

/-- Price-map update loop of the `tracked_price_update` case:
`updated[token.symbol.toUpperCase()] = token` for each token. -/
def updateTrackedPrices (tokens : List TrackedTokenPrice)
    (m : List (String × TrackedTokenPrice)) :
    List (String × TrackedTokenPrice) :=
  tokens.foldl (fun acc tok => upsert (jsToUpper tok.symbol) tok acc) m

/-- The length cap of a per-symbol history:
`arr.length > 500 ? arr.slice(-500) : arr`. -/
def capHistory (arr : List PricePoint) : List PricePoint :=
  if arr.length > 500 then arr.drop (arr.length - 500) else arr

/-- One iteration of the price-history loop: skip tokens whose
`price_usd` is `null`, otherwise append a `{t, p}` point under the
uppercased symbol and keep at most the last 500 points (`slice(-500)`). -/
def pushPricePoint (now : String) (tok : TrackedTokenPrice)
    (next : List (String × List PricePoint)) :
    List (String × List PricePoint) :=
  match tok.price_usd with
  | none => next
  | some p =>
      let sym := jsToUpper tok.symbol
      let arr := (getKey sym next).getD []
      upsert sym (capHistory (arr ++ [⟨now, p⟩])) next

/-- Price-history update loop of the `tracked_price_update` case. -/
def updatePriceHistory (now : String) (tokens : List TrackedTokenPrice)
    (m : List (String × List PricePoint)) :
    List (String × List PricePoint) :=
  tokens.foldl (fun acc tok => pushPricePoint now tok acc) m

/-- The `handleMessage` callback: JSON-parse (a failure is caught and only logged) and
dispatch on the `type` field. `now` is the value of
`new Date().toISOString()` during this invocation. -/
def handleMessage (now : String) (pr : ParseResult) (s : ClientState) :
    ClientState :=
  match pr with
  | .fail => s
  | .ok m =>
    match m with
    | .connected _ => s
    | .new_signal d =>
        { s with
          signals := ((d :: s.signals).take MAX_SIGNALS)
          invalidatedQueries := s.invalidatedQueries ++ ["signals"] }
    | .market_update mu =>
        { s with marketUpdates := ((mu :: s.marketUpdates).take MAX_SIGNALS) }
    | .sentiment_update d => { s with sentiment := some d }
    | .trending_update d => { s with trending := some d }
    | .tracked_price_update tokens? =>
        match tokens? with
        | some tokens =>
            { s with
              trackedPrices := updateTrackedPrices tokens s.trackedPrices
              priceHistory := updatePriceHistory now tokens s.priceHistory }
        | none => s
    | .tracked_transfer d? =>
        match d? with
        | some d =>
            { s with trackedTransfers := ((d :: s.trackedTransfers).take 50) }
        | none => s
    | .notification =>
        { s with invalidatedQueries := s.invalidatedQueries ++ ["notifications"] }
    | .channel_message cm? =>
        match cm? with
        | some cm =>
            { s with channelMessages := ((cm :: s.channelMessages).take 200) }
        | none => s
    | .monitoring_status =>
        { s with
          invalidatedQueries :=
            s.invalidatedQueries ++ ["monitoringStatus", "userTelegramStatus"] }
    | .pong => s
    | .error _ => s
    | .unknown _ => s

/-- The browser environment `getWebSocketUrl` reads: `window` presence,
the two build-time variables (the empty string models an unset or empty
variable, both falsy in JS), and `window.location` parts. -/
structure Env where
  windowDefined : Bool
  wsUrlEnv : String
  apiUrlEnv : String
  locationHostname : String
  locationHost : String
  locationProtocol : String
deriving DecidableEq, Repr

/-- The `getWebSocketUrl` helper: explicit `NEXT_PUBLIC_WS_URL` wins; else an
`http(s)` API URL is rewritten to `ws(s)` (securing the WebSocket exactly
when the API URL is `https`), stripped of a trailing slash and of an
`/api/v1` suffix, and given the stream path; else localhost development
falls back to port 8000; else the page's own host and protocol are used. -/
def getWebSocketUrl (e : Env) : String :=
  if !e.windowDefined then ""
  else if e.wsUrlEnv ≠ "" then e.wsUrlEnv
  else
    let apiUrl := e.apiUrlEnv
    if jsStartsWith apiUrl "http" then
      let wsProtocol := if jsStartsWith apiUrl "https" then "wss://" else "ws://"
      let baseUrl0 :=
        if jsStartsWith apiUrl "https://" then wsProtocol ++ apiUrl.drop 8
        else if jsStartsWith apiUrl "http://" then wsProtocol ++ apiUrl.drop 7
        else apiUrl
      let baseUrl1 :=
        if jsEndsWith baseUrl0 "/" then baseUrl0.dropRight 1 else baseUrl0
      let baseUrl2 :=
        if jsEndsWith baseUrl1 "/api/v1" then baseUrl1.dropRight 7 else baseUrl1
      baseUrl2 ++ "/api/v1/live/stream"
    else if e.locationHostname = "localhost" ∨
        e.locationHostname = "127.0.0.1" then
      "ws://localhost:8000/api/v1/live/stream"
    else
      (if e.locationProtocol = "https:" then "wss://" else "ws://") ++
        e.locationHost ++ "/api/v1/live/stream"

/-- The URL `connect` opens: the base URL with `?token=` appended when an
auth token is present (`enc` models `encodeURIComponent`). -/
def wsConnectUrl (enc : String → String) (token : String) (base : String) :
    String :=
  if token ≠ "" then base ++ "?token=" ++ enc token else base

/-- The `connect()` callback: a no-op when the current socket is `OPEN`; otherwise
builds the URL and replaces the socket handle with a fresh connecting
socket. -/
def connect (e : Env) (enc : String → String) (token : String)
    (s : ClientState) : ClientState :=
  match s.ws with
  | some sk =>
      if sk.readyState = ReadyState.OPEN then s
      else
        { s with
          ws := some ⟨wsConnectUrl enc token (getWebSocketUrl e),
                       ReadyState.CONNECTING, []⟩ }
  | none =>
      { s with
        ws := some ⟨wsConnectUrl enc token (getWebSocketUrl e),
                     ReadyState.CONNECTING, []⟩ }

/-- The `onopen` handler (the platform has already moved the socket to
`OPEN`): marks the client connected, resets the retry counter, and starts
the 30s heartbeat interval. -/
def onOpen (s : ClientState) : ClientState :=
  { s with
    ws := s.ws.map fun sk => { sk with readyState := ReadyState.OPEN }
    isConnected := true
    reconnectAttempts := 0
    pingTimer := some 30000 }

/-- The `onclose` handler (the platform has already moved the socket to
`CLOSED`): marks the client disconnected, stops the heartbeat, and — only
while the retry counter is below `MAX_RECONNECT_ATTEMPTS` — increments the
counter and schedules a reconnect after `min(base * attempts, 30000)` ms. -/
def onClose (s : ClientState) : ClientState :=
  let s1 :=
    { s with
      ws := s.ws.map fun sk => { sk with readyState := ReadyState.CLOSED }
      isConnected := false
      pingTimer := none }
  if s1.reconnectAttempts < MAX_RECONNECT_ATTEMPTS then
    let attempts := s1.reconnectAttempts + 1
    let delay := min (RECONNECT_INTERVAL * attempts) 30000
    { s1 with
      reconnectAttempts := attempts
      reconnectPending := true
      scheduledReconnects := s1.scheduledReconnects ++ [delay] }
  else s1

/-- One firing of the heartbeat interval: sends a ping iff the interval is
installed. -/
def pingTick (s : ClientState) : ClientState :=
  match s.pingTimer with
  | some _ => sendCommand WsCommand.ping s
  | none => s

/-- Events delivered to the client by the platform event loop. -/
inductive Ev where
  | openEv
  | closeEv
  | msgEv (now : String) (pr : ParseResult)
  | sendEv (cmd : WsCommand)
deriving DecidableEq, Repr

/-- Event dispatch into the corresponding handler. -/
def step (e : Ev) (s : ClientState) : ClientState :=
  match e with
  | .openEv => onOpen s
  | .closeEv => onClose s
  | .msgEv now pr => handleMessage now pr s
  | .sendEv cmd => sendCommand cmd s

/-- Run a trace of events left to right. -/
def run (tr : List Ev) (s : ClientState) : ClientState :=
  tr.foldl (fun a e => step e a) s

/-- Per-symbol price history, `[]` when the symbol has no entry. -/
def historyAt (s : ClientState) (sym : String) : List PricePoint :=
  (getKey sym s.priceHistory).getD []

/-- A concrete signal payload carrying a given id, used to instantiate the
buffer examples. -/
def exampleSignal (i : Int) : SignalData :=
  ⟨i, "TOK", "Token", "alpha-calls", Sentiment.NEUTRAL, none, 0, "2026-01-01"⟩

/-- A concrete market update carrying a given payload tag. -/
def exampleMarket (tag : String) : MarketUpdateMsg :=
  ⟨"2026-01-01", "binance", tag⟩

/-- A concrete channel message carrying a given message id. -/
def exampleChannelMsg (i : Int) : ChannelMessage :=
  ⟨"alpha-calls", 7, "gm", i, "2026-01-01", false, none, none, [], none, none⟩

/-- A concrete tracked transfer carrying a given transaction hash. -/
def exampleTransfer (h : String) : TrackedTransfer :=
  ⟨"BTC", "1", "0xa", "0xb", "0xc", "1000", "Bitcoin", "BTC", h, true, none,
    none, "2026-01-01"⟩

/-- A tracked-price entry for symbol `sym` at an optional USD price. -/
def priceEntry (sym : String) (p : Option Int) : TrackedTokenPrice :=
  ⟨sym, p, none⟩

/-- Feeding one `new_signal` frame. -/
def feedSignal (now : String) (d : SignalData) (s : ClientState) :
    ClientState :=
  handleMessage now (ParseResult.ok (WsMessage.new_signal d)) s

/-- Feeding one `MARKET_UPDATE` frame. -/
def feedMarket (now : String) (m : MarketUpdateMsg) (s : ClientState) :
    ClientState :=
  handleMessage now (ParseResult.ok (WsMessage.market_update m)) s

/-- Feeding one `channel_message` frame. -/
def feedChannel (now : String) (cm : ChannelMessage) (s : ClientState) :
    ClientState :=
  handleMessage now (ParseResult.ok (WsMessage.channel_message (some cm))) s

/-- Feeding one `tracked_transfer` frame. -/
def feedTransfer (now : String) (d : TrackedTransfer) (s : ClientState) :
    ClientState :=
  handleMessage now (ParseResult.ok (WsMessage.tracked_transfer (some d))) s

/-- Feeding one single-token `tracked_price_update` frame. -/
def feedPrice (now : String) (tok : TrackedTokenPrice) (s : ClientState) :
    ClientState :=
  handleMessage now (ParseResult.ok (WsMessage.tracked_price_update
    (some [tok]))) s

/-- A development browser environment (page served from localhost over
plain http, no build-time URL overrides). -/
def envLocal : Env :=
  ⟨true, "", "", "localhost", "localhost:3000", "http:"⟩

/-- A client state whose socket is currently `OPEN`. -/
def openState : ClientState :=
  { initialState with
    ws := some ⟨"ws://localhost:8000/api/v1/live/stream", ReadyState.OPEN, []⟩
    isConnected := true }

/-- A production browser environment in which the page is served over
plain http while the configured API origin is https. -/
def envMixed : Env :=
  ⟨true, "", "https://api.example.com", "app.example.com",
    "app.example.com", "http:"⟩

end CryptoSignal

namespace CryptoSignal

/-- C5: the message handler is a total function of the raw frame (the
parse error is caught inside, so nothing is thrown into the caller); an
unparseable payload and a parsed message with an unrecognized `type` both
leave the entire client state — connection state and every buffer —
unchanged. -/
theorem handleMessage_unparseable_or_unknown_noop :
    ∀ (now : String) (s : ClientState),
      handleMessage now ParseResult.fail s = s ∧
      ∀ tag, handleMessage now (ParseResult.ok (WsMessage.unknown tag)) s = s :=
  fun _ _ => ⟨rfl, fun _ => rfl⟩

/-- C4: `sendCommand` on a socket that is absent or not `OPEN` returns the
state unchanged (no throw, no buffer mutation, no queueing); when the
socket is `OPEN` the only change is the serialized command written to the
socket. -/
theorem sendCommand_not_open_drops (cmd : WsCommand) (s : ClientState) :
    ((∀ sk, s.ws = some sk → sk.readyState ≠ ReadyState.OPEN) →
      sendCommand cmd s = s) ∧
    (∀ sk, s.ws = some sk → sk.readyState = ReadyState.OPEN →
      sendCommand cmd s =
        { s with
          ws := some { sk with sent := sk.sent ++ [cmdToJson cmd] } }) := by
  constructor
  · intro h
    cases hws : s.ws with
    | none => simp [sendCommand, hws]
    | some sk => simp [sendCommand, hws, h sk hws]
  · intro sk hws hrs
    simp [sendCommand, hws, hrs]

/-- Witness for C4: sending a ping right after mount (no socket yet) is a
no-op. -/
theorem sendCommand_not_open_drops_witness :
    sendCommand WsCommand.ping initialState = initialState :=
  (sendCommand_not_open_drops WsCommand.ping initialState).1
    (fun _ h => by simp [initialState] at h)

/-- C8: `clearSignals` empties exactly the signals, market-updates and
channel-messages buffers and leaves every other field — connection handle,
connected flag, retry counter, timers, and all other state slices —
unchanged. -/
theorem clearSignals_exact_frame (s : ClientState) :
    (clearSignals s).signals = [] ∧
    (clearSignals s).marketUpdates = [] ∧
    (clearSignals s).channelMessages = [] ∧
    (clearSignals s).sentiment = s.sentiment ∧
    (clearSignals s).trending = s.trending ∧
    (clearSignals s).trackedPrices = s.trackedPrices ∧
    (clearSignals s).trackedTransfers = s.trackedTransfers ∧
    (clearSignals s).priceHistory = s.priceHistory ∧
    (clearSignals s).ws = s.ws ∧
    (clearSignals s).isConnected = s.isConnected ∧
    (clearSignals s).reconnectAttempts = s.reconnectAttempts ∧
    (clearSignals s).reconnectPending = s.reconnectPending ∧
    (clearSignals s).pingTimer = s.pingTimer ∧
    (clearSignals s).scheduledReconnects = s.scheduledReconnects ∧
    (clearSignals s).invalidatedQueries = s.invalidatedQueries :=
  ⟨rfl, rfl, rfl, rfl, rfl, rfl, rfl, rfl, rfl, rfl, rfl, rfl, rfl, rfl, rfl⟩

/-- C6: a `tracked_price_update` for BTC at 65000 followed by one at 66000
leaves the price map holding only the 66000 entry for "BTC", while the BTC
price history holds both points in insertion order. -/
theorem tracked_price_example :
    (feedPrice "t2" (priceEntry "BTC" (some 66000))
        (feedPrice "t1" (priceEntry "BTC" (some 65000))
          initialState)).trackedPrices =
      [("BTC", priceEntry "BTC" (some 66000))] ∧
    historyAt
      (feedPrice "t2" (priceEntry "BTC" (some 66000))
        (feedPrice "t1" (priceEntry "BTC" (some 65000)) initialState))
      "BTC" =
      [⟨"t1", 65000⟩, ⟨"t2", 66000⟩] := by
  decide

/-- C7: `connect()` is a no-op when the socket is already open; the open
handler sets the connected flag, resets the retry counter to zero and
installs the 30-second heartbeat interval, whose tick sends a ping. -/
theorem connect_noop_when_open_and_onOpen_resets
    (e : Env) (enc : String → String) (token : String) (s : ClientState) :
    ((∃ sk, s.ws = some sk ∧ sk.readyState = ReadyState.OPEN) →
      connect e enc token s = s) ∧
    (onOpen s).isConnected = true ∧
    (onOpen s).reconnectAttempts = 0 ∧
    (onOpen s).pingTimer = some 30000 ∧
    (s.pingTimer ≠ none → pingTick s = sendCommand WsCommand.ping s) := by
  refine ⟨?_, rfl, rfl, rfl, ?_⟩
  · rintro ⟨sk, hws, hrs⟩
    simp [connect, hws, hrs]
  · intro h
    cases hp : s.pingTimer with
    | none => exact absurd hp h
    | some n => simp [pingTick, hp]

/-- Running `onClose` below the retry cap increments the counter and logs the
capped linear delay. -/
theorem onClose_spec_lt (s : ClientState)
    (h : s.reconnectAttempts < MAX_RECONNECT_ATTEMPTS) :
    onClose s =
      { s with
        ws := s.ws.map fun sk => { sk with readyState := ReadyState.CLOSED }
        isConnected := false
        pingTimer := none
        reconnectAttempts := s.reconnectAttempts + 1
        reconnectPending := true
        scheduledReconnects := s.scheduledReconnects ++
          [min (RECONNECT_INTERVAL * (s.reconnectAttempts + 1)) 30000] } := by
  simp [onClose, h]

/-- Running `onClose` at or above the retry cap only tears the connection down. -/
theorem onClose_spec_ge (s : ClientState)
    (h : ¬ s.reconnectAttempts < MAX_RECONNECT_ATTEMPTS) :
    onClose s =
      { s with
        ws := s.ws.map fun sk => { sk with readyState := ReadyState.CLOSED }
        isConnected := false
        pingTimer := none } := by
  simp [onClose, h]

/-- Iterating `onClose` while the budget lasts: the counter advances by
one per close and the logged delays follow the capped linear schedule. -/
theorem iterate_onClose_spec :
    ∀ (K : Nat) (s : ClientState),
      s.reconnectAttempts + K ≤ MAX_RECONNECT_ATTEMPTS →
      (onClose^[K] s).reconnectAttempts = s.reconnectAttempts + K ∧
      (onClose^[K] s).scheduledReconnects = s.scheduledReconnects ++
        (List.range' (s.reconnectAttempts + 1) K).map
          (fun t => min (RECONNECT_INTERVAL * t) 30000) := by
  intro K
  induction K with
  | zero => intro s _; simp
  | succ K ih =>
      intro s h
      rw [Function.iterate_succ_apply]
      have hlt : s.reconnectAttempts < MAX_RECONNECT_ATTEMPTS := by omega
      have hA : (onClose s).reconnectAttempts = s.reconnectAttempts + 1 := by
        rw [onClose_spec_lt s hlt]
      have hS : (onClose s).scheduledReconnects = s.scheduledReconnects ++
          [min (RECONNECT_INTERVAL * (s.reconnectAttempts + 1)) 30000] := by
        rw [onClose_spec_lt s hlt]
      obtain ⟨ha, hs⟩ := ih (onClose s) (by rw [hA]; omega)
      constructor
      · rw [ha, hA]; omega
      · rw [hs, hS, hA, List.range'_succ]
        simp [List.append_assoc]

/-- Mapping a monotone function over `range'` yields a non-decreasing
sequence. -/
theorem chain_le_map_range' (f : Nat → Nat) (hf : Monotone f) :
    ∀ (K a : Nat), List.Chain' (· ≤ ·) ((List.range' a K).map f) := by
  intro K
  induction K with
  | zero => intro a; simp
  | succ K ih =>
      intro a
      rw [List.range'_succ, List.map_cons, List.chain'_cons']
      refine ⟨?_, ih (a + 1)⟩
      intro y hy
      cases K with
      | zero => simp at hy
      | succ K' =>
          rw [List.range'_succ, List.map_cons] at hy
          simp only [List.head?_cons, Option.mem_some_iff] at hy
          subst hy
          exact hf (Nat.le_succ a)

/-- C2: after `K` consecutive close events with `K` below the retry cap,
exactly `K` reconnects have been scheduled, one per close, with delay
`min(3000 * attempt, 30000)` for the attempt counter's value at that
close; the delays are non-decreasing and capped at 30000 ms. -/
theorem reconnect_backoff_after_closes (K : Nat) (s : ClientState)
    (hK : K < MAX_RECONNECT_ATTEMPTS)
    (h0 : s.reconnectAttempts = 0)
    (hsc : s.scheduledReconnects = []) :
    (onClose^[K] s).scheduledReconnects.length = K ∧
    (onClose^[K] s).reconnectAttempts = K ∧
    (onClose^[K] s).scheduledReconnects =
      (List.range' 1 K).map (fun t => min (RECONNECT_INTERVAL * t) 30000) ∧
    List.Chain' (· ≤ ·) (onClose^[K] s).scheduledReconnects ∧
    ∀ d ∈ (onClose^[K] s).scheduledReconnects, d ≤ 30000 := by
  have hmono : Monotone (fun t => min (RECONNECT_INTERVAL * t) 30000) :=
    fun a b hab => min_le_min (Nat.mul_le_mul le_rfl hab) le_rfl
  obtain ⟨ha, hs⟩ := iterate_onClose_spec K s (by omega)
  rw [h0] at ha
  rw [h0, hsc] at hs
  simp only [Nat.zero_add, List.nil_append] at ha hs
  refine ⟨?_, ha, hs, ?_, ?_⟩
  · rw [hs]; simp [List.length_range']
  · rw [hs]; exact chain_le_map_range' _ hmono K 1
  · rw [hs]
    intro d hd
    simp only [List.mem_map] at hd
    obtain ⟨t, -, rfl⟩ := hd
    exact min_le_right _ _

/-- Witness for C2: five straight closes from a fresh client schedule the
delays 3s, 6s, 9s, 12s, 15s. -/
theorem reconnect_backoff_after_closes_witness :
    (onClose^[5] initialState).scheduledReconnects =
      [3000, 6000, 9000, 12000, 15000] ∧
    (onClose^[5] initialState).reconnectAttempts = 5 := by
  have h := reconnect_backoff_after_closes 5 initialState (by decide) rfl rfl
  exact ⟨h.2.2.1.trans (by decide), h.2.1⟩

/-- The handler `handleMessage` never touches the retry counter, the reconnect log or
the connected flag. -/
theorem handleMessage_preserves_conn (now : String) (pr : ParseResult)
    (s : ClientState) :
    (handleMessage now pr s).reconnectAttempts = s.reconnectAttempts ∧
    (handleMessage now pr s).scheduledReconnects = s.scheduledReconnects ∧
    (handleMessage now pr s).isConnected = s.isConnected := by
  cases pr with
  | fail => exact ⟨rfl, rfl, rfl⟩
  | ok m =>
      cases m with
      | tracked_price_update o => cases o <;> exact ⟨rfl, rfl, rfl⟩
      | tracked_transfer o => cases o <;> exact ⟨rfl, rfl, rfl⟩
      | channel_message o => cases o <;> exact ⟨rfl, rfl, rfl⟩
      | connected msg => exact ⟨rfl, rfl, rfl⟩
      | new_signal d => exact ⟨rfl, rfl, rfl⟩
      | market_update mu => exact ⟨rfl, rfl, rfl⟩
      | sentiment_update d => exact ⟨rfl, rfl, rfl⟩
      | trending_update d => exact ⟨rfl, rfl, rfl⟩
      | notification => exact ⟨rfl, rfl, rfl⟩
      | monitoring_status => exact ⟨rfl, rfl, rfl⟩
      | pong => exact ⟨rfl, rfl, rfl⟩
      | error msg => exact ⟨rfl, rfl, rfl⟩
      | unknown tag => exact ⟨rfl, rfl, rfl⟩

/-- The sender `sendCommand` never touches the retry counter, the reconnect log or
the connected flag. -/
theorem sendCommand_preserves_conn (cmd : WsCommand) (s : ClientState) :
    (sendCommand cmd s).reconnectAttempts = s.reconnectAttempts ∧
    (sendCommand cmd s).scheduledReconnects = s.scheduledReconnects ∧
    (sendCommand cmd s).isConnected = s.isConnected := by
  cases h : s.ws with
  | none => simp [sendCommand, h]
  | some sk =>
      by_cases hr : sk.readyState = ReadyState.OPEN <;>
        simp [sendCommand, h, hr]

/-- Any step other than a successful open preserves the exhausted retry
state: counter, reconnect log, and (downward) the connected flag. -/
theorem step_no_open (e : Ev) (s : ClientState) (he : e ≠ Ev.openEv)
    (h : MAX_RECONNECT_ATTEMPTS ≤ s.reconnectAttempts) :
    (step e s).reconnectAttempts = s.reconnectAttempts ∧
    (step e s).scheduledReconnects = s.scheduledReconnects ∧
    ((step e s).isConnected = true → s.isConnected = true) := by
  cases e with
  | openEv => exact absurd rfl he
  | closeEv =>
      rw [show step Ev.closeEv s = onClose s from rfl,
        onClose_spec_ge s (by omega)]
      exact ⟨rfl, rfl, fun hc => by simp at hc⟩
  | msgEv now pr =>
      obtain ⟨a, b, c⟩ := handleMessage_preserves_conn now pr s
      exact ⟨a, b, fun hc => c ▸ hc⟩
  | sendEv cmd =>
      obtain ⟨a, b, c⟩ := sendCommand_preserves_conn cmd s
      exact ⟨a, b, fun hc => c ▸ hc⟩

/-- Running any open-free trace from an exhausted retry state changes
neither the counter nor the reconnect log, and cannot re-connect. -/
theorem run_no_open :
    ∀ (tr : List Ev) (s : ClientState),
      MAX_RECONNECT_ATTEMPTS ≤ s.reconnectAttempts → Ev.openEv ∉ tr →
      (run tr s).scheduledReconnects = s.scheduledReconnects ∧
      (run tr s).reconnectAttempts = s.reconnectAttempts ∧
      ((run tr s).isConnected = true → s.isConnected = true) := by
  intro tr
  induction tr with
  | nil => intro s _ _; exact ⟨rfl, rfl, fun h => h⟩
  | cons e tr ih =>
      intro s h hno
      have he : e ≠ Ev.openEv := fun hh => hno (hh ▸ List.mem_cons_self _ _)
      have hstep := step_no_open e s he h
      have hrec := ih (step e s) (hstep.1.symm ▸ h)
        (fun hm => hno (List.mem_cons_of_mem _ hm))
      exact ⟨hrec.1.trans hstep.2.1, hrec.2.1.trans hstep.1,
        fun hc => hstep.2.2 (hrec.2.2 hc)⟩

/-- C3: once the retry counter has reached the maximum and no successful
open intervenes, no close event schedules another connection attempt (the
reconnect log and the counter are frozen over any open-free trace, and the
client stays disconnected); moreover a step can reset the counter to zero
only if it was already zero or the step is a successful open. -/
theorem no_reconnect_after_max (s : ClientState) (tr : List Ev)
    (hmax : MAX_RECONNECT_ATTEMPTS ≤ s.reconnectAttempts)
    (hno : Ev.openEv ∉ tr) :
    (run tr s).scheduledReconnects = s.scheduledReconnects ∧
    (run tr s).reconnectAttempts = s.reconnectAttempts ∧
    (s.isConnected = false → (run tr s).isConnected = false) ∧
    (∀ (e : Ev) (s' : ClientState), (step e s').reconnectAttempts = 0 →
      s'.reconnectAttempts = 0 ∨ e = Ev.openEv) := by
  obtain ⟨a, b, c⟩ := run_no_open tr s hmax hno
  refine ⟨a, b, fun hd => ?_, ?_⟩
  · cases hrun : (run tr s).isConnected with
    | false => rfl
    | true => rw [c hrun] at hd; cases hd
  · intro e s' h0
    cases e with
    | openEv => exact Or.inr rfl
    | closeEv =>
        by_cases hlt : s'.reconnectAttempts < MAX_RECONNECT_ATTEMPTS
        · rw [show step Ev.closeEv s' = onClose s' from rfl,
            onClose_spec_lt s' hlt] at h0
          simp at h0
        · left
          rw [← h0, show step Ev.closeEv s' = onClose s' from rfl,
            onClose_spec_ge s' hlt]
    | msgEv now pr =>
        exact Or.inl ((handleMessage_preserves_conn now pr s').1.symm.trans h0)
    | sendEv cmd =>
        exact Or.inl ((sendCommand_preserves_conn cmd s').1.symm.trans h0)

/-- Witness for C3: with the counter at the maximum of 10, a trace of two
closes around a message leaves the log empty, the counter at 10, and the
client disconnected. -/
theorem no_reconnect_after_max_witness :
    (run [Ev.closeEv, Ev.msgEv "t" ParseResult.fail, Ev.closeEv]
      { initialState with reconnectAttempts := 10 }).scheduledReconnects
      = [] ∧
    (run [Ev.closeEv, Ev.msgEv "t" ParseResult.fail, Ev.closeEv]
      { initialState with reconnectAttempts := 10 }).reconnectAttempts
      = 10 ∧
    (run [Ev.closeEv, Ev.msgEv "t" ParseResult.fail, Ev.closeEv]
      { initialState with reconnectAttempts := 10 }).isConnected = false := by
  have h := no_reconnect_after_max
    { initialState with reconnectAttempts := 10 }
    [Ev.closeEv, Ev.msgEv "t" ParseResult.fail, Ev.closeEv]
    (by decide) (by decide)
  exact ⟨h.1, h.2.1, h.2.2.1 rfl⟩

/-- Witness for C7: with an open socket, `connect` returns the state
unchanged, and a heartbeat tick on a state with the interval installed
performs the ping send. -/
theorem connect_noop_when_open_witness :
    connect envLocal (fun t => t) "" openState = openState ∧
    pingTick { initialState with pingTimer := some 30000 } =
      sendCommand WsCommand.ping { initialState with pingTimer := some 30000 } :=
  ⟨(connect_noop_when_open_and_onOpen_resets envLocal (fun t => t) ""
      openState).1 ⟨_, rfl, rfl⟩,
   (connect_noop_when_open_and_onOpen_resets envLocal (fun t => t) ""
      { initialState with pingTimer := some 30000 }).2.2.2.2 (by simp)⟩

/-- Truncating the accumulated tail before appending does not change a
capped prefix. -/
theorem take_append_take (n : Nat) (b l : List α) :
    (b ++ l.take n).take n = (b ++ l).take n := by
  rw [List.take_append_eq_append_take, List.take_append_eq_append_take,
    List.take_take, inf_eq_left.mpr (Nat.sub_le n b.length)]

/-- Folding prepend-then-truncate over a list: the buffer is the reversed
input (newest first) prefixed to the start state, capped. -/
theorem foldl_cons_take (cap : Nat) :
    ∀ (xs acc : List α), acc.length ≤ cap →
      xs.foldl (fun a x => (x :: a).take cap) acc
        = (xs.reverse ++ acc).take cap := by
  intro xs
  induction xs with
  | nil =>
      intro acc h
      simp [List.take_of_length_le h]
  | cons x xs ih =>
      intro acc h
      rw [List.foldl_cons]
      rw [ih ((x :: acc).take cap) (by simp [List.length_take])]
      rw [take_append_take, List.reverse_cons, List.append_assoc]
      rfl

/-- Dropping from the front commutes with a later drop across an append. -/
theorem drop_append_drop (k m : Nat) (l xs : List α) (h : k ≤ l.length) :
    (l.drop k ++ xs).drop m = (l ++ xs).drop (k + m) := by
  have hlen : (l.take k).length = k := by
    rw [List.length_take]; omega
  have hd := @List.drop_append _ (l.take k) (l.drop k ++ xs) m
  rw [hlen, ← List.append_assoc, List.take_append_drop] at hd
  exact hd.symm

/-- Folding append-then-cap over the price history keeps exactly the most
recent 500 points, in insertion order. -/
theorem foldl_capHistory :
    ∀ (xs acc : List PricePoint), acc.length ≤ 500 →
      xs.foldl (fun a x => capHistory (a ++ [x])) acc
        = (acc ++ xs).drop (acc.length + xs.length - 500) := by
  intro xs
  induction xs with
  | nil =>
      intro acc h
      simp [Nat.sub_eq_zero_of_le h]
  | cons x xs ih =>
      intro acc h
      rw [List.foldl_cons]
      by_cases hlen : (acc ++ [x]).length > 500
      · have h500 : acc.length = 500 := by
          simp [List.length_append] at hlen; omega
        have hcap : capHistory (acc ++ [x]) = (acc ++ [x]).drop 1 := by
          rw [capHistory, if_pos hlen]
          have hone : (acc ++ [x]).length - 500 = 1 := by
            simp [List.length_append, h500]
          rw [hone]
        rw [hcap]
        rw [ih _ (by simp [List.length_drop, List.length_append, h500])]
        rw [drop_append_drop 1 _ (acc ++ [x]) xs
          (by simp [List.length_append])]
        rw [List.append_assoc]
        have harith : (1 + (((acc ++ [x]).drop 1).length + xs.length - 500))
            = acc.length + (x :: xs).length - 500 := by
          simp [List.length_drop, List.length_append, List.length_cons, h500]
          omega
        rw [harith]
        rfl
      · have hcap : capHistory (acc ++ [x]) = acc ++ [x] := by
          rw [capHistory, if_neg hlen]
        have hle : (acc ++ [x]).length ≤ 500 := by omega
        rw [hcap, ih _ hle, List.append_assoc]
        have harith : ((acc ++ [x]).length + xs.length - 500)
            = acc.length + (x :: xs).length - 500 := by
          simp [List.length_append, List.length_cons]
          omega
        rw [harith]
        rfl

/-- Reading back the key just written by `upsert`. -/
theorem getKey_upsert_self (k : String) (v : α)
    (m : List (String × α)) : getKey k (upsert k v m) = some v := by
  induction m with
  | nil => simp [upsert, getKey]
  | cons kv rest ih =>
      obtain ⟨k', v'⟩ := kv
      by_cases h : k' = k
      · simp [upsert, h, getKey]
      · simp [upsert, h, getKey, ih]

/-- One BTC price frame appends one capped point to the BTC history. -/
theorem historyAt_feedPrice_btc (now : String) (p : Int) (s : ClientState) :
    historyAt (feedPrice now (priceEntry "BTC" (some p)) s) "BTC"
      = capHistory (historyAt s "BTC" ++ [⟨now, p⟩]) := by
  have hup : jsToUpper "BTC" = "BTC" := rfl
  simp [historyAt, feedPrice, handleMessage, updatePriceHistory,
    pushPricePoint, priceEntry, hup, getKey_upsert_self]

/-- The signals slice of a fold of `new_signal` frames is the fold of the
prepend-then-cap buffer operation. -/
theorem signals_foldl_feedSignal (now : String) :
    ∀ (ds : List SignalData) (s : ClientState),
      (ds.foldl (fun st d => feedSignal now d st) s).signals
        = ds.foldl (fun a d => (d :: a).take MAX_SIGNALS) s.signals := by
  intro ds
  induction ds with
  | nil => intro s; rfl
  | cons d ds ih =>
      intro s
      rw [List.foldl_cons, List.foldl_cons, ih]
      rfl

/-- The market-updates slice of a fold of `MARKET_UPDATE` frames. -/
theorem market_foldl_feedMarket (now : String) :
    ∀ (ms : List MarketUpdateMsg) (s : ClientState),
      (ms.foldl (fun st m => feedMarket now m st) s).marketUpdates
        = ms.foldl (fun a m => (m :: a).take MAX_SIGNALS) s.marketUpdates := by
  intro ms
  induction ms with
  | nil => intro s; rfl
  | cons m ms ih =>
      intro s
      rw [List.foldl_cons, List.foldl_cons, ih]
      rfl

/-- The channel-messages slice of a fold of `channel_message` frames. -/
theorem channel_foldl_feedChannel (now : String) :
    ∀ (cms : List ChannelMessage) (s : ClientState),
      (cms.foldl (fun st c => feedChannel now c st) s).channelMessages
        = cms.foldl (fun a c => (c :: a).take 200) s.channelMessages := by
  intro cms
  induction cms with
  | nil => intro s; rfl
  | cons c cms ih =>
      intro s
      rw [List.foldl_cons, List.foldl_cons, ih]
      rfl

/-- The transfers slice of a fold of `tracked_transfer` frames. -/
theorem transfers_foldl_feedTransfer (now : String) :
    ∀ (tfs : List TrackedTransfer) (s : ClientState),
      (tfs.foldl (fun st d => feedTransfer now d st) s).trackedTransfers
        = tfs.foldl (fun a d => (d :: a).take 50) s.trackedTransfers := by
  intro tfs
  induction tfs with
  | nil => intro s; rfl
  | cons d tfs ih =>
      intro s
      rw [List.foldl_cons, List.foldl_cons, ih]
      rfl

/-- The BTC history of a fold of BTC price frames is the fold of the
append-then-cap operation. -/
theorem historyAt_foldl_feedPrice (now : String) :
    ∀ (ps : List Int) (s : ClientState),
      historyAt (ps.foldl
          (fun st p => feedPrice now (priceEntry "BTC" (some p)) st) s) "BTC"
        = ps.foldl (fun a p => capHistory (a ++ [⟨now, p⟩]))
            (historyAt s "BTC") := by
  intro ps
  induction ps with
  | nil => intro s; rfl
  | cons p ps ih =>
      intro s
      rw [List.foldl_cons, List.foldl_cons, ih, historyAt_feedPrice_btc]

/-- Threading the point construction through the history fold. -/
theorem foldl_points (now : String) :
    ∀ (ps : List Int) (acc : List PricePoint),
      ps.foldl (fun a p => capHistory (a ++ [⟨now, p⟩])) acc
        = (ps.map (fun p => (⟨now, p⟩ : PricePoint))).foldl
            (fun a x => capHistory (a ++ [x])) acc := by
  intro ps
  induction ps with
  | nil => intro acc; rfl
  | cons p ps ih =>
      intro acc
      rw [List.map_cons, List.foldl_cons, List.foldl_cons, ih]

/-- C1 (amended): each bounded buffer keeps exactly its capacity once more
items than the capacity have been inserted, holding precisely the most
recent items: the signals (100), market-updates (100), channel-messages
(200) and transfers (50) buffers in newest-first order, and the
per-symbol price history (500) in insertion order; in particular feeding
signals with ids 1..150 leaves the signals buffer holding ids 150..51
newest-first. -/
theorem bounded_buffers_capacity_order (now : String)
    (ds : List SignalData) (ms : List MarketUpdateMsg)
    (cms : List ChannelMessage) (tfs : List TrackedTransfer)
    (ps : List Int) (s : ClientState)
    (hsig : s.signals = []) (hmkt : s.marketUpdates = [])
    (hch : s.channelMessages = []) (htf : s.trackedTransfers = [])
    (hph : s.priceHistory = [])
    (hds : 100 < ds.length) (hms : 100 < ms.length)
    (hcms : 200 < cms.length) (htfs : 50 < tfs.length)
    (hps : 500 < ps.length) :
    (ds.foldl (fun st d => feedSignal now d st) s).signals
        = ds.reverse.take 100 ∧
    (ds.foldl (fun st d => feedSignal now d st) s).signals.length = 100 ∧
    (ms.foldl (fun st m => feedMarket now m st) s).marketUpdates
        = ms.reverse.take 100 ∧
    (ms.foldl (fun st m => feedMarket now m st) s).marketUpdates.length
        = 100 ∧
    (cms.foldl (fun st c => feedChannel now c st) s).channelMessages
        = cms.reverse.take 200 ∧
    (cms.foldl (fun st c => feedChannel now c st) s).channelMessages.length
        = 200 ∧
    (tfs.foldl (fun st d => feedTransfer now d st) s).trackedTransfers
        = tfs.reverse.take 50 ∧
    (tfs.foldl (fun st d => feedTransfer now d st) s).trackedTransfers.length
        = 50 ∧
    historyAt (ps.foldl
        (fun st p => feedPrice now (priceEntry "BTC" (some p)) st) s) "BTC"
        = (ps.map (fun p => (⟨now, p⟩ : PricePoint))).drop (ps.length - 500) ∧
    (historyAt (ps.foldl
        (fun st p => feedPrice now (priceEntry "BTC" (some p)) st) s)
        "BTC").length = 500 ∧
    (((List.range' 1 150).map (fun i => exampleSignal (Int.ofNat i))).foldl
        (fun st d => feedSignal now d st) initialState).signals.map
          SignalData.id
      = ((List.range' 51 100).map Int.ofNat).reverse := by
  have hS : (ds.foldl (fun st d => feedSignal now d st) s).signals
      = ds.reverse.take 100 := by
    rw [signals_foldl_feedSignal, hsig,
      foldl_cons_take MAX_SIGNALS ds [] (by simp)]
    simp [MAX_SIGNALS]
  have hM : (ms.foldl (fun st m => feedMarket now m st) s).marketUpdates
      = ms.reverse.take 100 := by
    rw [market_foldl_feedMarket, hmkt,
      foldl_cons_take MAX_SIGNALS ms [] (by simp)]
    simp [MAX_SIGNALS]
  have hC : (cms.foldl (fun st c => feedChannel now c st) s).channelMessages
      = cms.reverse.take 200 := by
    rw [channel_foldl_feedChannel, hch,
      foldl_cons_take 200 cms [] (by simp)]
    simp
  have hT : (tfs.foldl (fun st d => feedTransfer now d st) s).trackedTransfers
      = tfs.reverse.take 50 := by
    rw [transfers_foldl_feedTransfer, htf,
      foldl_cons_take 50 tfs [] (by simp)]
    simp
  have hp0 : historyAt s "BTC" = [] := by
    simp [historyAt, hph, getKey]
  have hH : historyAt (ps.foldl
      (fun st p => feedPrice now (priceEntry "BTC" (some p)) st) s) "BTC"
      = (ps.map (fun p => (⟨now, p⟩ : PricePoint))).drop (ps.length - 500) := by
    rw [historyAt_foldl_feedPrice, hp0, foldl_points,
      foldl_capHistory _ _ (by simp)]
    simp
  have hX : (((List.range' 1 150).map
      (fun i => exampleSignal (Int.ofNat i))).foldl
      (fun st d => feedSignal now d st) initialState).signals.map
        SignalData.id
      = ((List.range' 51 100).map Int.ofNat).reverse := by
    rw [signals_foldl_feedSignal,
      foldl_cons_take MAX_SIGNALS _ initialState.signals (by decide)]
    decide
  refine ⟨hS, ?_, hM, ?_, hC, ?_, hT, ?_, hH, ?_, hX⟩
  · rw [hS]; simp [List.length_take]; omega
  · rw [hM]; simp [List.length_take]; omega
  · rw [hC]; simp [List.length_take]; omega
  · rw [hT]; simp [List.length_take]; omega
  · rw [hH]; simp [List.length_drop, List.length_map]; omega

/-- Witness for C1 (amended): overfilling each buffer by one (501 price
points) pins each buffer at its configured capacity. -/
theorem bounded_buffers_capacity_order_witness :
    ((List.replicate 101 (exampleSignal 1)).foldl
        (fun st d => feedSignal "t" d st) initialState).signals.length
      = 100 ∧
    ((List.replicate 101 (exampleMarket "m")).foldl
        (fun st m => feedMarket "t" m st) initialState).marketUpdates.length
      = 100 ∧
    ((List.replicate 201 (exampleChannelMsg 1)).foldl
        (fun st c => feedChannel "t" c st) initialState).channelMessages.length
      = 200 ∧
    (((List.replicate 51 (exampleTransfer "0x1")).foldl
        (fun st d => feedTransfer "t" d st)
        initialState).trackedTransfers).length = 50 ∧
    (historyAt ((List.replicate 501 (0 : Int)).foldl
        (fun st p => feedPrice "t" (priceEntry "BTC" (some p)) st)
        initialState) "BTC").length = 500 := by
  obtain ⟨-, h2, -, h4, -, h6, -, h8, -, h10, -⟩ :=
    bounded_buffers_capacity_order "t"
      (List.replicate 101 (exampleSignal 1))
      (List.replicate 101 (exampleMarket "m"))
      (List.replicate 201 (exampleChannelMsg 1))
      (List.replicate 51 (exampleTransfer "0x1"))
      (List.replicate 501 (0 : Int)) initialState
      rfl rfl rfl rfl rfl
      (by rw [List.length_replicate]; omega)
      (by rw [List.length_replicate]; omega)
      (by rw [List.length_replicate]; omega)
      (by rw [List.length_replicate]; omega)
      (by rw [List.length_replicate]; omega)
  exact ⟨h2, h4, h6, h8, h10⟩

set_option maxRecDepth 40000 in
/-- Counterexample to C1 as stated: feeding 501 price points for "BTC"
leaves the price history holding the 500 most recent points in insertion
order, not in newest-first order, so the history differs from the
newest-first sequence the claim asserts for every capped buffer. -/
theorem bounded_buffers_newest_first_counterexample :
    historyAt ((List.replicate 500 (0 : Int) ++ [1]).foldl
        (fun st p => feedPrice "t" (priceEntry "BTC" (some p)) st)
        initialState) "BTC"
      ≠ (((List.replicate 500 (0 : Int) ++ [1]).map
          (fun p => (⟨"t", p⟩ : PricePoint))).reverse).take 500 := by
  intro hcontra
  rw [historyAt_foldl_feedPrice,
    show historyAt initialState "BTC" = [] from rfl, foldl_points,
    foldl_capHistory _ _ (by simp)] at hcontra
  exact absurd (congrArg List.head? hcontra) (by decide)

/-- C9 (amended): the endpoint URL follows the configured API origin when
one of http(s) form is set (and no explicit WS URL override is present):
its scheme is the encrypted `wss` exactly when the API origin itself is
`https`; only when no http(s) API origin is configured and the page host
is not a localhost development host does it fall back to the page's own
host, encrypted exactly when the page is served `https`; an auth token, if
present, is appended as a `?token=` query parameter. -/
theorem ws_url_scheme_and_token (e : Env) (enc : String → String)
    (token : String) (base : String)
    (hw : e.windowDefined = true) (hws : e.wsUrlEnv = "") :
    ((jsStartsWith e.apiUrlEnv "http" = true) →
      (jsStartsWith e.apiUrlEnv "https" = true) →
      (jsStartsWith e.apiUrlEnv "https://" = true) →
      (jsEndsWith ("wss://" ++ e.apiUrlEnv.drop 8) "/" = false) →
      (jsEndsWith ("wss://" ++ e.apiUrlEnv.drop 8) "/api/v1" = false) →
      getWebSocketUrl e =
        "wss://" ++ e.apiUrlEnv.drop 8 ++ "/api/v1/live/stream") ∧
    ((jsStartsWith e.apiUrlEnv "http" = true) →
      (jsStartsWith e.apiUrlEnv "https" = false) →
      (jsStartsWith e.apiUrlEnv "https://" = false) →
      (jsStartsWith e.apiUrlEnv "http://" = true) →
      (jsEndsWith ("ws://" ++ e.apiUrlEnv.drop 7) "/" = false) →
      (jsEndsWith ("ws://" ++ e.apiUrlEnv.drop 7) "/api/v1" = false) →
      getWebSocketUrl e =
        "ws://" ++ e.apiUrlEnv.drop 7 ++ "/api/v1/live/stream") ∧
    ((jsStartsWith e.apiUrlEnv "http" = false) →
      e.locationHostname ≠ "localhost" → e.locationHostname ≠ "127.0.0.1" →
      getWebSocketUrl e =
        (if e.locationProtocol = "https:" then "wss://" else "ws://") ++
          e.locationHost ++ "/api/v1/live/stream") ∧
    (token ≠ "" → wsConnectUrl enc token base = base ++ "?token=" ++ enc token) ∧
    (token = "" → wsConnectUrl enc token base = base) := by
  refine ⟨?_, ?_, ?_, ?_, ?_⟩
  · intro h0 h1 h2 h3 h4
    simp [getWebSocketUrl, hw, hws, h0, h1, h2, h3, h4]
  · intro h0 h1 h2 h3 h4 h5
    simp [getWebSocketUrl, hw, hws, h0, h1, h2, h3, h4, h5]
  · intro h0 h1 h2
    simp [getWebSocketUrl, hw, hws, h0, h1, h2]
  · intro h
    simp [wsConnectUrl, h]
  · intro h
    simp [wsConnectUrl, h]

/-- Witness for C9 (amended): an https API origin yields a `wss` stream
URL even though the page itself is plain http, and a present token is
appended as a query parameter. -/
theorem ws_url_scheme_and_token_witness :
    getWebSocketUrl envMixed = "wss://api.example.com/api/v1/live/stream" ∧
    wsConnectUrl (fun t => t) "tok123" "ws://h/api/v1/live/stream"
      = "ws://h/api/v1/live/stream?token=tok123" := by
  have h := ws_url_scheme_and_token envMixed (fun t => t) "tok123"
    "ws://h/api/v1/live/stream" rfl rfl
  exact ⟨h.1 (by decide) (by decide) (by decide) (by decide) (by decide),
    h.2.2.2.1 (by decide)⟩

/-- Counterexample to C9 as stated: for a page served over plain http
with an https API origin configured, the endpoint URL is `wss`, so the
scheme is not upgraded "exactly when the page itself is served
encrypted". -/
theorem ws_url_page_protocol_counterexample :
    ¬((jsStartsWith (getWebSocketUrl envMixed) "wss" = true) ↔
      envMixed.locationProtocol = "https:") := by
  decide

/-- C10: inside a `tracked_price_update`, each token is keyed by its
uppercased symbol in the price map and in the price-history map; a token
whose `price_usd` is null still updates the price map but appends no
history point. -/
theorem tracked_price_uppercase_and_null (now : String)
    (tok : TrackedTokenPrice) (s : ClientState) :
    (feedPrice now tok s).trackedPrices
        = upsert (jsToUpper tok.symbol) tok s.trackedPrices ∧
    (tok.price_usd = none →
      (feedPrice now tok s).priceHistory = s.priceHistory) ∧
    (∀ p, tok.price_usd = some p →
      (feedPrice now tok s).priceHistory =
        upsert (jsToUpper tok.symbol)
          (capHistory ((getKey (jsToUpper tok.symbol) s.priceHistory).getD []
            ++ [⟨now, p⟩])) s.priceHistory) := by
  refine ⟨rfl, ?_, ?_⟩
  · intro h
    simp [feedPrice, handleMessage, updatePriceHistory, pushPricePoint, h]
  · intro p h
    simp [feedPrice, handleMessage, updatePriceHistory, pushPricePoint, h]

/-- Witness for C10: a lowercase "btc" entry with a null price lands under
key "BTC" in the price map and adds nothing to the price history. -/
theorem tracked_price_uppercase_and_null_witness :
    (feedPrice "t" (priceEntry "btc" none) initialState).trackedPrices
      = [("BTC", priceEntry "btc" none)] ∧
    (feedPrice "t" (priceEntry "btc" none) initialState).priceHistory = [] := by
  have h := tracked_price_uppercase_and_null "t" (priceEntry "btc" none)
    initialState
  exact ⟨h.1.trans (by decide), h.2.1 rfl⟩

end CryptoSignal
